import Mathlib

/-!
Verification model of the mcp-z/oauth account directory and token store.

The development shallowly embeds the TypeScript sources:

* `src/key-utils.ts` — compound-key codec (`createAccountKey`, `createServiceKey`,
  `parseTokenKey`, `listAccountIds`);
* `src/account-utils.ts` — directory operations (`addAccount`, `removeAccount`,
  `getActiveAccount`, `setActiveAccount`, `getLinkedAccounts`, `getAccountInfo`,
  `setAccountInfo`);
* `src/lib/account-server/shared-utils.ts` — `findAccountByEmailOrAlias`;
* `src/lib/account-server/loopback.ts` — the account-switch and account-remove
  tool handlers.

The Keyv store is modelled as a partial map from key strings to dynamic values
(`Store`).  JavaScript semantics that matter are embedded explicitly: truthiness
of values (`undefined` and the empty string are falsy, arrays and objects are
truthy), strict equality between a stored value and a string, and
`Array.prototype.includes` / `String.prototype.split`.  Key-parameter validation
errors (identifiers containing the colon delimiter) are modelled with
`Except String`; every operation validates before its first write, exactly as
the source does, so a failed call leaves the store unchanged.

The interactive re-authentication capability (`auth.getAccessToken`) lives
outside this repository; following the source it is modelled as an opaque store
transformer whose returned value is ignored — the loopback handler reads the
resulting email from the active-account pointer afterwards.
-/

namespace McpOauth

/-- The `AccountInfo` record of `src/types.ts`: a stable email, an optional
human-assigned alias, a creation timestamp and an optional last-used
timestamp.  Timestamps are opaque strings.  (The optional profile `metadata`
sub-object is never read or written by the code under verification.) -/
structure AccountInfo where
  email : String
  aliasName : Option String
  addedAt : String
  lastUsed : Option String
deriving DecidableEq, Repr

/-- Dynamic value stored in the Keyv store: a string (active-account pointer),
an array of strings (linked-accounts list), or an account-metadata object. -/
inductive Value where
  | vStr (s : String)
  | vList (l : List String)
  | vInfo (i : AccountInfo)
deriving DecidableEq, Repr

/-- The key-value store: a partial map from opaque string keys to values. -/
def Store : Type := String → Option Value

/-- `store.set(key, v)`. -/
def storeSet (store : Store) (key : String) (v : Value) : Store :=
  fun k => if k = key then some v else store k

/-- `store.delete(key)`. -/
def storeDel (store : Store) (key : String) : Store :=
  fun k => if k = key then none else store k

/-- The empty store. -/
def emptyStore : Store := fun _ => none

/-- Embedding of the JavaScript string test `value.includes(":")`. -/
def hasColon (s : String) : Bool := decide (':' ∈ s.data)

/-- JavaScript truthiness of a possibly-absent stored value: `undefined` and the
empty string are falsy; arrays and objects (even empty ones) are truthy. -/
def truthyV : Option Value → Bool
  | none => false
  | some (.vStr s) => decide (s ≠ "")
  | some _ => true

/-- JavaScript truthiness of an optional string parameter. -/
def truthyS : Option String → Bool
  | none => false
  | some s => decide (s ≠ "")

/-- JavaScript strict equality `v === s` between a stored value and a string. -/
def strictEqStr : Option Value → String → Bool
  | some (.vStr t), s => decide (t = s)
  | _, _ => false

/-! ## Key codec (`src/key-utils.ts`) -/

/-- Validation message of `validateKeyParams` for a colon in `accountId`. -/
def accountIdColonMsg : String := "Key parameter accountId cannot contain colon character"

/-- Validation message of `validateKeyParams` for a colon in `service`. -/
def serviceColonMsg : String := "Key parameter service cannot contain colon character"

/-- The raw account-scoped key format `accountId:service:type`. -/
def mkAccountKey (accountId service type : String) : String :=
  accountId ++ ":" ++ service ++ ":" ++ type

/-- The raw service-scoped key format `service:type`. -/
def mkServiceKey (type service : String) : String :=
  service ++ ":" ++ type

/-- `createAccountKey(type, {accountId, service})`: validates that neither
identifier contains the colon delimiter, then builds `accountId:service:type`.
Key types in the source are `token`, `metadata` and `dcr-client`. -/
def createAccountKey (type accountId service : String) : Except String String :=
  if hasColon accountId then .error accountIdColonMsg
  else if hasColon service then .error serviceColonMsg
  else .ok (mkAccountKey accountId service type)

/-- `createServiceKey(type, {service})`: validates `service`, then builds
`service:type`.  Key types in the source are `active` and `linked`. -/
def createServiceKey (type service : String) : Except String String :=
  if hasColon service then .error serviceColonMsg
  else .ok (mkServiceKey type service)

/-- Splitting a character list at every occurrence of `c`, mirroring
`String.prototype.split` on the underlying characters. -/
def splitChars (c : Char) : List Char → List (List Char)
  | [] => [[]]
  | x :: xs =>
    if x = c then [] :: splitChars c xs
    else
      match splitChars c xs with
      | [] => [[x]]
      | y :: ys => (x :: y) :: ys

/-- Embedding of JavaScript `key.split(c)` for a single-character separator. -/
def jsSplit (s : String) (c : Char) : List String := (splitChars c s.data).map String.mk

/-- Result of `parseTokenKey`. -/
structure ParsedTokenKey where
  accountId : String
  service : String
deriving DecidableEq, Repr

/-- `parseTokenKey(key)`: succeeds only for keys with exactly three
colon-delimited segments whose last segment is the literal `token` and whose
first two segments are non-empty; returns the not-found sentinel otherwise. -/
def parseTokenKey (key : String) : Option ParsedTokenKey :=
  match jsSplit key ':' with
  | [p0, p1, p2] =>
    if p2 = "token" ∧ p0 ≠ "" ∧ p1 ≠ "" then some ⟨p0, p1⟩ else none
  | _ => none

/-- Enumeration behaviour of the backing store, as observed by
`listAccountIds`: `none` models a store whose `iterator` is not available
(`store.iterator?.()` yields nothing to iterate); `some (keys, errored)` models
an iterator that yields `keys` in order and then either completes
(`errored = false`) or raises (`errored = true`). -/
def IterationOutcome : Type := Option (List String × Bool)

/-- `listAccountIds(store, service)`: iterates all keys, parses each with
`parseTokenKey` and collects the account ids whose service matches.  The
surrounding `try`/`catch` returns the accumulator built so far both when the
iterator is missing and when iteration raises, so the `errored` flag does not
change the returned list. -/
def listAccountIds (iter : IterationOutcome) (service : String) : List String :=
  match iter with
  | none => []
  | some (keys, _errored) =>
    keys.foldl
      (fun acc key =>
        match parseTokenKey key with
        | some p => if p.service = service then acc ++ [p.accountId] else acc
        | none => acc)
      []

/-! ## Account directory (`src/account-utils.ts`)

Each operation validates its key parameters before its first store access,
exactly as the source does (`createAccountKey` / `createServiceKey` throw
before any read or write), so a failing call returns the store unchanged
together with the error.  The helpers below model the store reads performed
after validation succeeded. -/

/-- Read of the linked-accounts slot performed by `getLinkedAccounts` after key
validation: `(await store.get(key)) || []`.  An absent value yields the empty
list.  A value of a different shape lies outside the directory data model
(the source would misbehave on it); it is mapped to the empty list and claims
about arbitrary directory states carry a well-formedness hypothesis
(`LinkedWF`) excluding it. -/
def linkedList (store : Store) (service : String) : List String :=
  match store (mkServiceKey "linked" service) with
  | some (.vList l) => l
  | _ => []

/-- Raw read of the active-account slot: `store.get(service + ":active")`. -/
def activeRaw (store : Store) (service : String) : Option Value :=
  store (mkServiceKey "active" service)

/-- Read of the metadata slot performed by `getAccountInfo` after key
validation.  A value of a different shape is treated as absent. -/
def infoRead (store : Store) (accountId service : String) : Option AccountInfo :=
  match store (mkAccountKey accountId service "metadata") with
  | some (.vInfo i) => some i
  | _ => none

/-- Well-formedness of the linked-accounts slot for one service: absent or an
array of strings.  This is the shape every reachable directory state has. -/
def LinkedWF (store : Store) (service : String) : Prop :=
  store (mkServiceKey "linked" service) = none ∨
    ∃ l, store (mkServiceKey "linked" service) = some (.vList l)

/-- `getLinkedAccounts(store, {service})`. -/
def getLinkedAccounts (store : Store) (service : String) : Except String (List String) :=
  if hasColon service then .error serviceColonMsg
  else .ok (linkedList store service)

/-- `getActiveAccount(store, {service})`: validates the service and returns the
raw stored value (`undefined` when absent). -/
def getActiveAccount (store : Store) (service : String) : Except String (Option Value) :=
  if hasColon service then .error serviceColonMsg
  else .ok (activeRaw store service)

/-- `setActiveAccount(store, params)`: unconditional write of the pointer;
`accountId: null` (modelled as `none`) deletes it.  Only the service is
validated — the account id is not checked and membership in the linked list is
not verified. -/
def setActiveAccount (store : Store) (service : String) (accountId : Option String) :
    Store × Except String Unit :=
  if hasColon service then (store, .error serviceColonMsg)
  else
    match accountId with
    | none => (storeDel store (mkServiceKey "active" service), .ok ())
    | some a => (storeSet store (mkServiceKey "active" service) (.vStr a), .ok ())

/-- `getAccountInfo(store, {accountId, service})`. -/
def getAccountInfo (store : Store) (accountId service : String) :
    Except String (Option AccountInfo) :=
  if hasColon accountId then .error accountIdColonMsg
  else if hasColon service then .error serviceColonMsg
  else .ok (infoRead store accountId service)

/-- `setAccountInfo(store, {accountId, service}, info)`: direct replacement of
the metadata record, no merge. -/
def setAccountInfo (store : Store) (accountId service : String) (info : AccountInfo) :
    Store × Except String Unit :=
  if hasColon accountId then (store, .error accountIdColonMsg)
  else if hasColon service then (store, .error serviceColonMsg)
  else (storeSet store (mkAccountKey accountId service "metadata") (.vInfo info), .ok ())

/-- `addAccount(store, {service, accountId})`: append the account to the
linked list when not already present (`linked.includes` — the account id
itself is never validated here), then set it active when the current
active value is falsy. -/
def addAccount (store : Store) (service accountId : String) : Store × Except String Unit :=
  if hasColon service then (store, .error serviceColonMsg)
  else
    let linked := linkedList store service
    let s1 :=
      if decide (accountId ∈ linked) then store
      else storeSet store (mkServiceKey "linked" service) (.vList (linked ++ [accountId]))
    if truthyV (activeRaw s1 service) then (s1, .ok ())
    else (storeSet s1 (mkServiceKey "active" service) (.vStr accountId), .ok ())

/-- `removeAccount(store, {service, accountId})`: delete token and metadata
records, store the filtered linked list, and when the removed account was the
active one re-point to the first remaining account — the JavaScript test
`if (newActive)` treats both an empty list and an empty-string first element
as "no remaining account" and deletes the pointer. -/
def removeAccount (store : Store) (service accountId : String) : Store × Except String Unit :=
  if hasColon accountId then (store, .error accountIdColonMsg)
  else if hasColon service then (store, .error serviceColonMsg)
  else
    let s1 := storeDel store (mkAccountKey accountId service "token")
    let s2 := storeDel s1 (mkAccountKey accountId service "metadata")
    let linked := linkedList s2 service
    let filtered := linked.filter (fun id => decide (id ≠ accountId))
    let s3 := storeSet s2 (mkServiceKey "linked" service) (.vList filtered)
    if strictEqStr (activeRaw s3 service) accountId then
      match filtered.head? with
      | some newActive =>
        if newActive = "" then (storeDel s3 (mkServiceKey "active" service), .ok ())
        else (storeSet s3 (mkServiceKey "active" service) (.vStr newActive), .ok ())
      | none => (storeDel s3 (mkServiceKey "active" service), .ok ())
    else (s3, .ok ())

/-! ## Shared lookup (`src/lib/account-server/shared-utils.ts`) -/

/-- The alias scan of `findAccountByEmailOrAlias`: walk the linked accounts in
list order and return the first whose metadata alias strictly equals the
reference.  `getAccountInfo` validates each account id, so a linked id
containing a colon makes the scan throw when reached. -/
def scanAlias (store : Store) (service emailOrAlias : String) :
    List String → Except String (Option String)
  | [] => .ok none
  | accountId :: rest =>
    if hasColon accountId then .error accountIdColonMsg
    else
      match infoRead store accountId service with
      | some info =>
        if info.aliasName = some emailOrAlias then .ok (some accountId)
        else scanAlias store service emailOrAlias rest
      | none => scanAlias store service emailOrAlias rest

/-- `findAccountByEmailOrAlias(store, service, emailOrAlias)`: exact match on
the linked-accounts list first, then the alias scan; `none` when neither
matches. -/
def findAccountByEmailOrAlias (store : Store) (service emailOrAlias : String) :
    Except String (Option String) :=
  if hasColon service then .error serviceColonMsg
  else
    let linked := linkedList store service
    if decide (emailOrAlias ∈ linked) then .ok (some emailOrAlias)
    else scanAlias store service emailOrAlias linked

/-! ## Loopback account-server handlers (`src/lib/account-server/loopback.ts`) -/

/-- Input of the account-switch tool: optional email-or-alias reference and
optional alias to assign. -/
structure SwitchParams where
  email : Option String
  aliasArg : Option String
deriving DecidableEq, Repr

/-- Structured success payload of the account-switch tool. -/
structure SwitchOk where
  email : String
  isNew : Bool
  totalAccounts : Nat
  message : String
deriving DecidableEq, Repr

/-- Outcome of an account-switch invocation: the final store, the result (the
handler wraps any thrown message), and how often the re-authentication
capability (`auth.getAccessToken`) was invoked. -/
structure SwitchOutcome where
  store : Store
  result : Except String SwitchOk
  authCalls : Nat

/-- The `McpError` wrapper of the account-switch handler. -/
def wrapSwitch (service msg : String) : String :=
  "Error switching " ++ service ++ " account: " ++ msg

/-- The `McpError` wrapper of the account-remove handler. -/
def wrapRemove (service msg : String) : String :=
  "Error removing " ++ service ++ " account: " ++ msg

/-- Error thrown when the OAuth flow returns without a falsy-free active
account pointer. -/
def oauthNoActiveMsg : String := "OAuth flow completed without setting an active account"

/-- Success message of the reuse branch. -/
def reuseMsg (email : String) : String :=
  "Account already linked: " ++ email ++ ". Set as active account (no OAuth needed)."

/-- The reuse branch of account-switch: the reference resolved to the linked
account `accountId`.  Sets it active, optionally overwrites its alias while
preserving the original creation timestamp, and reports `isNew = false`
without ever invoking the re-authentication capability. -/
def switchReuse (service now : String) (aliasArg : Option String) (store : Store)
    (existingAccounts : List String) (accountId : String) : SwitchOutcome :=
  let s1 := (setActiveAccount store service (some accountId)).1
  let okOut : SwitchOk :=
    { email := accountId, isNew := false, totalAccounts := existingAccounts.length,
      message := reuseMsg accountId }
  if truthyS aliasArg then
    if hasColon accountId then ⟨s1, .error (wrapSwitch service accountIdColonMsg), 0⟩
    else
      let existingInfo := infoRead s1 accountId service
      let info : AccountInfo :=
        { email := accountId, aliasName := aliasArg,
          addedAt := (existingInfo.map AccountInfo.addedAt).getD now, lastUsed := none }
      let s2 := storeSet s1 (mkAccountKey accountId service "metadata") (.vInfo info)
      ⟨s2, .ok okOut, 0⟩
  else ⟨s1, .ok okOut, 0⟩

/-- The re-authentication branch of account-switch.  The capability is an
opaque transformer of the shared store whose returned access token is ignored;
the handler then reads the email from the active-account pointer.  A falsy
pointer (absent or empty) aborts with `oauthNoActiveMsg`; a non-string value
in the pointer slot lies outside the directory data model and is treated the
same way.  Otherwise the email is added when missing from the pre-existing
list, the metadata record is rewritten (alias taken only from the supplied
argument), and the pointer is set. -/
def switchOAuth (service now : String) (authCap : Store → Store × Except String Unit)
    (aliasArg : Option String) (store : Store) (existingAccounts : List String) :
    SwitchOutcome :=
  let capOut := authCap store
  let s1 := capOut.1
  match capOut.2 with
  | .error msg => ⟨s1, .error (wrapSwitch service msg), 1⟩
  | .ok _ =>
    match activeRaw s1 service with
    | some (.vStr email) =>
      if email = "" then ⟨s1, .error (wrapSwitch service oauthNoActiveMsg), 1⟩
      else
        let isNew := decide (email ∉ existingAccounts)
        let s2 := if isNew then (addAccount s1 service email).1 else s1
        if hasColon email then ⟨s2, .error (wrapSwitch service accountIdColonMsg), 1⟩
        else
          let existingInfo := infoRead s2 email service
          let info : AccountInfo :=
            { email := email,
              aliasName := if truthyS aliasArg then aliasArg else none,
              addedAt :=
                if isNew then now else (existingInfo.map AccountInfo.addedAt).getD now,
              lastUsed := none }
          let s3 := storeSet s2 (mkAccountKey email service "metadata") (.vInfo info)
          let s4 := (setActiveAccount s3 service (some email)).1
          let total := if isNew then existingAccounts.length + 1 else existingAccounts.length
          let msg :=
            if isNew then
              "Successfully added " ++ service ++ " account: " ++ email ++
                " (" ++ toString total ++ " total)"
            else "Account already linked: " ++ email ++ ". Set as active account."
          ⟨s4, .ok { email := email, isNew := isNew, totalAccounts := total, message := msg }, 1⟩
    | _ => ⟨s1, .error (wrapSwitch service oauthNoActiveMsg), 1⟩

/-- The account-switch tool handler.  A supplied, truthy email reference is
resolved by `findAccountByEmailOrAlias`; on success the reuse branch runs,
otherwise (including a falsy reference) the re-authentication branch runs. -/
def accountSwitch (service : String) (authCap : Store → Store × Except String Unit)
    (now : String) (params : SwitchParams) (store : Store) : SwitchOutcome :=
  if hasColon service then ⟨store, .error (wrapSwitch service serviceColonMsg), 0⟩
  else
    let existingAccounts := linkedList store service
    if truthyS params.email then
      match findAccountByEmailOrAlias store service (params.email.getD "") with
      | .error msg => ⟨store, .error (wrapSwitch service msg), 0⟩
      | .ok (some accountId) =>
        switchReuse service now params.aliasArg store existingAccounts accountId
      | .ok none => switchOAuth service now authCap params.aliasArg store existingAccounts
    else switchOAuth service now authCap params.aliasArg store existingAccounts

/-- Structured success payload of the account-remove tool. -/
structure RemoveOk where
  service : String
  removed : String
  remainingAccounts : Nat
  newActiveAccount : Option String
  message : String
deriving DecidableEq, Repr

/-- Success message of the account-remove tool. -/
def removeOkMsg (service accountId : String) (newActive : Option String) : String :=
  "Removed " ++ service ++ " account: " ++ accountId ++
    (match newActive with
     | some x => ". Active account is now: " ++ x
     | none => "")

/-- The account-remove tool handler: reject when no accounts are linked,
resolve the reference (error when it resolves to nothing), then remove the
account and re-point the active account to the first remaining one when the
removed account was active (the `if (firstRemaining)` test skips an
empty-string id). -/
def accountRemove (service ref : String) (store : Store) : Store × Except String RemoveOk :=
  if hasColon service then (store, .error (wrapRemove service serviceColonMsg))
  else
    let linkedAccounts := linkedList store service
    if linkedAccounts.length = 0 then
      (store, .error (wrapRemove service ("No " ++ service ++ " accounts to remove")))
    else
      match findAccountByEmailOrAlias store service ref with
      | .error msg => (store, .error (wrapRemove service msg))
      | .ok none => (store, .error (wrapRemove service ("Account not found: " ++ ref)))
      | .ok (some accountId) =>
        let removingActive := strictEqStr (activeRaw store service) accountId
        match removeAccount store service accountId with
        | (s1, .error msg) => (s1, .error (wrapRemove service msg))
        | (s1, .ok _) =>
          let remaining := linkedAccounts.filter (fun id => decide (id ≠ accountId))
          if removingActive ∧ remaining.length > 0 then
            match remaining.head? with
            | some f =>
              if f ≠ "" then
                ((setActiveAccount s1 service (some f)).1,
                  .ok { service := service, removed := accountId,
                        remainingAccounts := remaining.length, newActiveAccount := some f,
                        message := removeOkMsg service accountId (some f) })
              else
                (s1, .ok { service := service, removed := accountId,
                           remainingAccounts := remaining.length, newActiveAccount := none,
                           message := removeOkMsg service accountId none })
            | none =>
              (s1, .ok { service := service, removed := accountId,
                         remainingAccounts := remaining.length, newActiveAccount := none,
                         message := removeOkMsg service accountId none })
          else
            (s1, .ok { service := service, removed := accountId,
                       remainingAccounts := remaining.length, newActiveAccount := none,
                       message := removeOkMsg service accountId none })

/-! ## Operation sequences for the directory invariant -/

/-- One call of the three directory mutators. -/
inductive DirOp where
  | add (service accountId : String)
  | remove (service accountId : String)
  | setActive (service : String) (accountId : Option String)

/-- The store after a call, whether it completed or threw (throwing calls
validate before their first write and leave the store unchanged). -/
def applyOp (store : Store) : DirOp → Store
  | .add s a => (addAccount store s a).1
  | .remove s a => (removeAccount store s a).1
  | .setActive s a => (setActiveAccount store s a).1

/-- Valid arguments for a call, per the documented preconditions: the
directory does not verify that `setActiveAccount` receives a linked account,
so callers must pass one (or deactivate); `addAccount` and `removeAccount`
accept arbitrary identifiers. -/
def ValidOp (store : Store) : DirOp → Prop
  | .setActive s (some a) => a ∈ linkedList store s
  | _ => True

/-- Stores reachable from `s` by finite sequences of valid directory calls. -/
inductive Reachable : Store → Store → Prop
  | refl (s : Store) : Reachable s s
  | step {s t : Store} (op : DirOp) : Reachable s t → ValidOp t op → Reachable s (applyOp t op)

/-- Decidable equality for `Except`, used to evaluate closed runs. -/
instance exceptDecEq {ε α : Type} [DecidableEq ε] [DecidableEq α] : DecidableEq (Except ε α) :=
  fun x y =>
  match x, y with
  | .ok u, .ok w =>
    if h : u = w then .isTrue (by rw [h]) else .isFalse (by intro hc; cases hc; exact h rfl)
  | .error u, .error w =>
    if h : u = w then .isTrue (by rw [h]) else .isFalse (by intro hc; cases hc; exact h rfl)
  | .ok _, .error _ => .isFalse (by intro hc; cases hc)
  | .error _, .ok _ => .isFalse (by intro hc; cases hc)

/-- The directory invariant: for every service, a present active-account
pointer is a string naming a member of that service's linked-accounts list. -/
def ActiveInv (t : Store) : Prop :=
  ∀ service v, hasColon service = false → activeRaw t service = some v →
    ∃ a, v = .vStr a ∧ a ∈ linkedList t service

/-- A re-authentication capability that leaves the store unchanged. -/
def idCap : Store → Store × Except String Unit := fun s => (s, .ok ())

/-- Concrete directory for the C2 counterexample: service `g` with the single
linked account whose identifier is the empty string. -/
def c2Store : Store := storeSet emptyStore (mkServiceKey "linked" "g") (.vList [""])

/-- Concrete two-account directory used to witness the amended C2. -/
def c2WitnessStore : Store :=
  storeSet emptyStore (mkServiceKey "linked" "g") (.vList ["u1", "u2"])

/-- Pre-existing metadata of account `b@x` in the C3 run: alias `work`. -/
def c3Info : AccountInfo :=
  { email := "b@x", aliasName := some "work", addedAt := "t1", lastUsed := none }

/-- Concrete directory for the C3 run: two linked accounts for service `g`,
the second carrying alias `work`. -/
def c3Store : Store :=
  storeSet (storeSet emptyStore (mkServiceKey "linked" "g") (.vList ["a@x", "b@x"]))
    (mkAccountKey "b@x" "g" "metadata") (.vInfo c3Info)

/-- Re-authentication capability of the C3 run: the flow re-authorizes the
already-linked account `b@x` and sets it active. -/
def c3Cap : Store → Store × Except String Unit :=
  fun s => (storeSet s (mkServiceKey "active" "g") (.vStr "b@x"), .ok ())

/-- Concrete directory for the C4 counterexample: linked accounts `["a", ""]`
for service `g`, with `a` active. -/
def c4Store : Store :=
  storeSet (storeSet emptyStore (mkServiceKey "linked" "g") (.vList ["a", ""]))
    (mkServiceKey "active" "g") (.vStr "a")

/-! ## Basic lemmas: strings, keys and the store -/

theorem string_eq_of_data_eq {s t : String} (h : s.data = t.data) : s = t :=
  congrArg String.mk h

theorem hasColon_false_iff {s : String} : hasColon s = false ↔ ':' ∉ s.data := by
  simp [hasColon]

theorem count_colon_eq_zero {s : String} (h : hasColon s = false) : s.data.count ':' = 0 :=
  List.count_eq_zero.mpr (hasColon_false_iff.mp h)

theorem append_cons_inj {c : Char} :
    ∀ {x y zs ws : List Char}, c ∉ x → c ∉ y →
      x ++ c :: zs = y ++ c :: ws → x = y ∧ zs = ws := by
  intro x
  induction x with
  | nil =>
    intro y zs ws _ hy h
    cases y with
    | nil => simpa using h
    | cons b bs =>
      simp only [List.nil_append, List.cons_append, List.cons.injEq] at h
      exact absurd (h.1 ▸ List.mem_cons_self b bs) (h.1 ▸ hy)
  | cons u us ih =>
    intro y zs ws hx hy h
    cases y with
    | nil =>
      simp only [List.nil_append, List.cons_append, List.cons.injEq] at h
      exact absurd (h.1.symm ▸ List.mem_cons_self u us) (h.1.symm ▸ hx)
    | cons b bs =>
      simp only [List.cons_append, List.cons.injEq] at h
      have hx' : c ∉ us := fun hm => hx (List.mem_cons_of_mem u hm)
      have hy' : c ∉ bs := fun hm => hy (List.mem_cons_of_mem b hm)
      obtain ⟨h1, h2⟩ := ih hx' hy' h.2
      exact ⟨by rw [h.1, h1], h2⟩

theorem mkServiceKey_data (k s : String) :
    (mkServiceKey k s).data = s.data ++ ':' :: k.data := by
  simp [mkServiceKey, String.data_append, List.append_assoc]

theorem mkAccountKey_data (a s t : String) :
    (mkAccountKey a s t).data = a.data ++ ':' :: (s.data ++ ':' :: t.data) := by
  simp [mkAccountKey, String.data_append, List.append_assoc]

theorem mkServiceKey_count {k s : String} (hk : hasColon k = false) (hs : hasColon s = false) :
    (mkServiceKey k s).data.count ':' = 1 := by
  simp [mkServiceKey_data, List.count_append, List.count_cons,
    count_colon_eq_zero hk, count_colon_eq_zero hs]

theorem mkAccountKey_count {a s t : String} (ha : hasColon a = false)
    (hs : hasColon s = false) (ht : hasColon t = false) :
    (mkAccountKey a s t).data.count ':' = 2 := by
  simp [mkAccountKey_data, List.count_append, List.count_cons,
    count_colon_eq_zero ha, count_colon_eq_zero hs, count_colon_eq_zero ht]

theorem mkServiceKey_ne_mkAccountKey {k s a sv t : String} (hk : hasColon k = false)
    (hs : hasColon s = false) (ha : hasColon a = false) (hsv : hasColon sv = false)
    (ht : hasColon t = false) : mkServiceKey k s ≠ mkAccountKey a sv t := by
  intro h
  have hc : (mkServiceKey k s).data.count ':' = (mkAccountKey a sv t).data.count ':' := by
    rw [h]
  rw [mkServiceKey_count hk hs, mkAccountKey_count ha hsv ht] at hc
  exact absurd hc (by decide)

theorem mkServiceKey_inj {k k' s s' : String} (_hk : hasColon k = false)
    (_hk' : hasColon k' = false) (hs : hasColon s = false) (hs' : hasColon s' = false)
    (h : mkServiceKey k s = mkServiceKey k' s') : s = s' ∧ k = k' := by
  have hd := congrArg String.data h
  rw [mkServiceKey_data, mkServiceKey_data] at hd
  obtain ⟨h1, h2⟩ := append_cons_inj (hasColon_false_iff.mp hs) (hasColon_false_iff.mp hs') hd
  exact ⟨string_eq_of_data_eq h1, string_eq_of_data_eq h2⟩

theorem activeKey_ne_linkedKey {s s' : String} (hs : hasColon s = false)
    (hs' : hasColon s' = false) : mkServiceKey "active" s ≠ mkServiceKey "linked" s' := by
  intro h
  exact absurd (mkServiceKey_inj (by decide) (by decide) hs hs' h).2 (by decide)

theorem activeKey_inj {s s' : String} (hs : hasColon s = false) (hs' : hasColon s' = false)
    (h : mkServiceKey "active" s = mkServiceKey "active" s') : s = s' :=
  (mkServiceKey_inj (by decide) (by decide) hs hs' h).1

theorem linkedKey_inj {s s' : String} (hs : hasColon s = false) (hs' : hasColon s' = false)
    (h : mkServiceKey "linked" s = mkServiceKey "linked" s') : s = s' :=
  (mkServiceKey_inj (by decide) (by decide) hs hs' h).1

theorem storeSet_get_self (t : Store) (k : String) (v : Value) : storeSet t k v k = some v := by
  simp [storeSet]

theorem storeSet_get_ne (t : Store) (k : String) (v : Value) {k' : String} (h : k' ≠ k) :
    storeSet t k v k' = t k' := by
  simp [storeSet, h]

theorem storeDel_get_self (t : Store) (k : String) : storeDel t k k = none := by
  simp [storeDel]

theorem storeDel_get_ne (t : Store) (k : String) {k' : String} (h : k' ≠ k) :
    storeDel t k k' = t k' := by
  simp [storeDel, h]

theorem storeSet_cancel {t : Store} {k : String} {v : Value} (h : t k = some v) :
    storeSet t k v = t := by
  funext k'
  by_cases hk : k' = k
  · rw [hk, storeSet_get_self, h]
  · rw [storeSet_get_ne _ _ _ hk]

/-! ## Slot-level frame lemmas -/

theorem activeRaw_set_active_self {t : Store} {s : String} {v : Value} :
    activeRaw (storeSet t (mkServiceKey "active" s) v) s = some v :=
  storeSet_get_self t _ v

theorem activeRaw_set_active_ne {t : Store} {s s' : String} {v : Value}
    (hs : hasColon s = false) (hs' : hasColon s' = false) (h : s' ≠ s) :
    activeRaw (storeSet t (mkServiceKey "active" s) v) s' = activeRaw t s' :=
  storeSet_get_ne t _ v (fun he => h (activeKey_inj hs' hs he))

theorem activeRaw_del_active_self {t : Store} {s : String} :
    activeRaw (storeDel t (mkServiceKey "active" s)) s = none :=
  storeDel_get_self t _

theorem activeRaw_del_active_ne {t : Store} {s s' : String}
    (hs : hasColon s = false) (hs' : hasColon s' = false) (h : s' ≠ s) :
    activeRaw (storeDel t (mkServiceKey "active" s)) s' = activeRaw t s' :=
  storeDel_get_ne t _ (fun he => h (activeKey_inj hs' hs he))

theorem activeRaw_set_linked {t : Store} {s s' : String} {v : Value}
    (hs : hasColon s = false) (hs' : hasColon s' = false) :
    activeRaw (storeSet t (mkServiceKey "linked" s) v) s' = activeRaw t s' :=
  storeSet_get_ne t _ v (activeKey_ne_linkedKey hs' hs)

theorem activeRaw_set_account {t : Store} {a sv ty s' : String} {v : Value}
    (ha : hasColon a = false) (hsv : hasColon sv = false) (hty : hasColon ty = false)
    (hs' : hasColon s' = false) :
    activeRaw (storeSet t (mkAccountKey a sv ty) v) s' = activeRaw t s' :=
  storeSet_get_ne t _ v (mkServiceKey_ne_mkAccountKey (by decide) hs' ha hsv hty)

theorem activeRaw_del_account {t : Store} {a sv ty s' : String}
    (ha : hasColon a = false) (hsv : hasColon sv = false) (hty : hasColon ty = false)
    (hs' : hasColon s' = false) :
    activeRaw (storeDel t (mkAccountKey a sv ty)) s' = activeRaw t s' :=
  storeDel_get_ne t _ (mkServiceKey_ne_mkAccountKey (by decide) hs' ha hsv hty)

theorem linkedList_set_linked_self {t : Store} {s : String} {l : List String} :
    linkedList (storeSet t (mkServiceKey "linked" s) (.vList l)) s = l := by
  unfold linkedList
  rw [storeSet_get_self]

theorem linkedList_set_linked_ne {t : Store} {s s' : String} {v : Value}
    (hs : hasColon s = false) (hs' : hasColon s' = false) (h : s' ≠ s) :
    linkedList (storeSet t (mkServiceKey "linked" s) v) s' = linkedList t s' := by
  unfold linkedList
  rw [storeSet_get_ne t _ v (fun he => h (linkedKey_inj hs' hs he))]

theorem linkedList_set_active {t : Store} {s s' : String} {v : Value}
    (hs : hasColon s = false) (hs' : hasColon s' = false) :
    linkedList (storeSet t (mkServiceKey "active" s) v) s' = linkedList t s' := by
  unfold linkedList
  rw [storeSet_get_ne t _ v (fun he => activeKey_ne_linkedKey hs hs' he.symm)]

theorem linkedList_del_active {t : Store} {s s' : String}
    (hs : hasColon s = false) (hs' : hasColon s' = false) :
    linkedList (storeDel t (mkServiceKey "active" s)) s' = linkedList t s' := by
  unfold linkedList
  rw [storeDel_get_ne t _ (fun he => activeKey_ne_linkedKey hs hs' he.symm)]

theorem linkedList_set_account {t : Store} {a sv ty s' : String} {v : Value}
    (ha : hasColon a = false) (hsv : hasColon sv = false) (hty : hasColon ty = false)
    (hs' : hasColon s' = false) :
    linkedList (storeSet t (mkAccountKey a sv ty) v) s' = linkedList t s' := by
  unfold linkedList
  rw [storeSet_get_ne t _ v (mkServiceKey_ne_mkAccountKey (by decide) hs' ha hsv hty)]

theorem linkedList_del_account {t : Store} {a sv ty s' : String}
    (ha : hasColon a = false) (hsv : hasColon sv = false) (hty : hasColon ty = false)
    (hs' : hasColon s' = false) :
    linkedList (storeDel t (mkAccountKey a sv ty)) s' = linkedList t s' := by
  unfold linkedList
  rw [storeDel_get_ne t _ (mkServiceKey_ne_mkAccountKey (by decide) hs' ha hsv hty)]

theorem infoRead_set_service {t : Store} {k s a sv : String} {v : Value}
    (hk : hasColon k = false) (hs : hasColon s = false) (ha : hasColon a = false)
    (hsv : hasColon sv = false) :
    infoRead (storeSet t (mkServiceKey k s) v) a sv = infoRead t a sv := by
  unfold infoRead
  rw [storeSet_get_ne t _ v (fun he => mkServiceKey_ne_mkAccountKey hk hs ha hsv
    (by decide) he.symm)]

/-! ## Preservation of the directory invariant -/

theorem activeInv_addAccount {t : Store} (s a : String) (h : ActiveInv t) :
    ActiveInv ((addAccount t s a).1) := by
  by_cases hs : hasColon s
  · simpa [addAccount, hs] using h
  · rw [Bool.not_eq_true] at hs
    by_cases hmem : a ∈ linkedList t s
    · by_cases htr : truthyV (activeRaw t s)
      · simpa [addAccount, hs, hmem, htr] using h
      · rw [Bool.not_eq_true] at htr
        intro sv v hsv hav
        rw [show (addAccount t s a).1 = storeSet t (mkServiceKey "active" s) (.vStr a) by
          simp [addAccount, hs, hmem, htr]] at hav ⊢
        by_cases hsv_s : sv = s
        · subst hsv_s
          rw [activeRaw_set_active_self] at hav
          cases Option.some.inj hav
          exact ⟨a, rfl, by rwa [linkedList_set_active hsv hsv]⟩
        · rw [activeRaw_set_active_ne hs hsv hsv_s] at hav
          obtain ⟨a', rfl, hm⟩ := h sv _ hsv hav
          exact ⟨a', rfl, by rwa [linkedList_set_active hs hsv]⟩
    · have hset : ∀ sv, hasColon sv = false →
          activeRaw (storeSet t (mkServiceKey "linked" s)
            (.vList (linkedList t s ++ [a]))) sv = activeRaw t sv :=
        fun sv hsv => activeRaw_set_linked hs hsv
      have hlink : ∀ sv, hasColon sv = false →
          linkedList (storeSet t (mkServiceKey "linked" s)
            (.vList (linkedList t s ++ [a]))) sv =
            if sv = s then linkedList t s ++ [a] else linkedList t sv := by
        intro sv hsv
        by_cases hsv_s : sv = s
        · subst hsv_s
          rw [if_pos rfl, linkedList_set_linked_self]
        · rw [if_neg hsv_s, linkedList_set_linked_ne hs hsv hsv_s]
      by_cases htr : truthyV (activeRaw t s)
      · intro sv v hsv hav
        rw [show (addAccount t s a).1 =
            storeSet t (mkServiceKey "linked" s) (.vList (linkedList t s ++ [a])) by
          simp [addAccount, hs, hmem, activeRaw_set_linked hs hs, htr]] at hav ⊢
        rw [hset sv hsv] at hav
        obtain ⟨a', rfl, hm⟩ := h sv _ hsv hav
        refine ⟨a', rfl, ?_⟩
        rw [hlink sv hsv]
        by_cases hsv_s : sv = s
        · subst hsv_s
          exact if_pos rfl ▸ List.mem_append_left _ hm
        · rwa [if_neg hsv_s]
      · rw [Bool.not_eq_true] at htr
        intro sv v hsv hav
        rw [show (addAccount t s a).1 =
            storeSet (storeSet t (mkServiceKey "linked" s) (.vList (linkedList t s ++ [a])))
              (mkServiceKey "active" s) (.vStr a) by
          simp [addAccount, hs, hmem, activeRaw_set_linked hs hs, htr]] at hav ⊢
        by_cases hsv_s : sv = s
        · subst hsv_s
          rw [activeRaw_set_active_self] at hav
          cases Option.some.inj hav
          refine ⟨a, rfl, ?_⟩
          rw [linkedList_set_active hsv hsv, hlink sv hsv, if_pos rfl]
          exact List.mem_append_right _ (List.mem_singleton_self a)
        · rw [activeRaw_set_active_ne hs hsv hsv_s, hset sv hsv] at hav
          obtain ⟨a', rfl, hm⟩ := h sv _ hsv hav
          refine ⟨a', rfl, ?_⟩
          rw [linkedList_set_active hs hsv, hlink sv hsv, if_neg hsv_s]
          exact hm

theorem activeInv_setActive {t : Store} (s : String) (oa : Option String)
    (hv : ValidOp t (.setActive s oa)) (h : ActiveInv t) :
    ActiveInv ((setActiveAccount t s oa).1) := by
  by_cases hs : hasColon s
  · simpa [setActiveAccount, hs] using h
  · rw [Bool.not_eq_true] at hs
    cases oa with
    | none =>
      intro sv v hsv hav
      rw [show (setActiveAccount t s none).1 = storeDel t (mkServiceKey "active" s) by
        simp [setActiveAccount, hs]] at hav ⊢
      by_cases hsv_s : sv = s
      · subst hsv_s
        rw [activeRaw_del_active_self] at hav
        exact Option.noConfusion hav
      · rw [activeRaw_del_active_ne hs hsv hsv_s] at hav
        obtain ⟨a', rfl, hm⟩ := h sv _ hsv hav
        exact ⟨a', rfl, by rwa [linkedList_del_active hs hsv]⟩
    | some a =>
      have hmem : a ∈ linkedList t s := hv
      intro sv v hsv hav
      rw [show (setActiveAccount t s (some a)).1 =
          storeSet t (mkServiceKey "active" s) (.vStr a) by
        simp [setActiveAccount, hs]] at hav ⊢
      by_cases hsv_s : sv = s
      · subst hsv_s
        rw [activeRaw_set_active_self] at hav
        cases Option.some.inj hav
        exact ⟨a, rfl, by rwa [linkedList_set_active hsv hsv]⟩
      · rw [activeRaw_set_active_ne hs hsv hsv_s] at hav
        obtain ⟨a', rfl, hm⟩ := h sv _ hsv hav
        exact ⟨a', rfl, by rwa [linkedList_set_active hs hsv]⟩

theorem activeInv_removeAccount {t : Store} (s a : String) (h : ActiveInv t) :
    ActiveInv ((removeAccount t s a).1) := by
  by_cases ha : hasColon a
  · simpa [removeAccount, ha] using h
  · rw [Bool.not_eq_true] at ha
    by_cases hs : hasColon s
    · simpa [removeAccount, ha, hs] using h
    · rw [Bool.not_eq_true] at hs
      set s2 : Store := storeDel (storeDel t (mkAccountKey a s "token"))
        (mkAccountKey a s "metadata") with hs2
      have hact2 : ∀ sv, hasColon sv = false → activeRaw s2 sv = activeRaw t sv := by
        intro sv hsv
        rw [hs2, activeRaw_del_account ha hs (by decide) hsv,
          activeRaw_del_account ha hs (by decide) hsv]
      have hlink2 : ∀ sv, hasColon sv = false → linkedList s2 sv = linkedList t sv := by
        intro sv hsv
        rw [hs2, linkedList_del_account ha hs (by decide) hsv,
          linkedList_del_account ha hs (by decide) hsv]
      set filtered : List String := (linkedList s2 s).filter (fun id => decide (id ≠ a))
        with hfiltered
      set s3 : Store := storeSet s2 (mkServiceKey "linked" s) (.vList filtered) with hs3
      have hact3 : ∀ sv, hasColon sv = false → activeRaw s3 sv = activeRaw t sv := by
        intro sv hsv
        rw [hs3, activeRaw_set_linked hs hsv, hact2 sv hsv]
      have hlink3 : ∀ sv, hasColon sv = false →
          linkedList s3 sv = if sv = s then filtered else linkedList t sv := by
        intro sv hsv
        by_cases hsv_s : sv = s
        · subst hsv_s
          rw [if_pos rfl, hs3, linkedList_set_linked_self]
        · rw [if_neg hsv_s, hs3, linkedList_set_linked_ne hs hsv hsv_s, hlink2 sv hsv]
      have hbody : (removeAccount t s a).1 =
          (if strictEqStr (activeRaw s3 s) a then
            match filtered.head? with
            | some newActive =>
              if newActive = "" then storeDel s3 (mkServiceKey "active" s)
              else storeSet s3 (mkServiceKey "active" s) (.vStr newActive)
            | none => storeDel s3 (mkServiceKey "active" s)
          else s3) := by
        simp only [removeAccount, ha, hs, Bool.false_eq_true, if_false]
        rw [← hs2, ← hfiltered, ← hs3]
        by_cases hcond : strictEqStr (activeRaw s3 s) a
        · rw [if_pos hcond, if_pos hcond]
          cases filtered.head? with
          | none => rfl
          | some na => by_cases hna : na = "" <;> simp [hna]
        · rw [if_neg hcond, if_neg hcond]
      rw [hbody]
      by_cases hcond : strictEqStr (activeRaw s3 s) a
      · rw [if_pos hcond]
        cases hh : filtered.head? with
        | none =>
          show ActiveInv (storeDel s3 (mkServiceKey "active" s))
          intro sv v hsv hav
          by_cases hsv_s : sv = s
          · subst hsv_s
            rw [activeRaw_del_active_self] at hav
            exact Option.noConfusion hav
          · rw [activeRaw_del_active_ne hs hsv hsv_s, hact3 sv hsv] at hav
            obtain ⟨a', rfl, hm⟩ := h sv _ hsv hav
            refine ⟨a', rfl, ?_⟩
            rw [linkedList_del_active hs hsv, hlink3 sv hsv, if_neg hsv_s]
            exact hm
        | some na =>
          show ActiveInv (if na = "" then storeDel s3 (mkServiceKey "active" s)
            else storeSet s3 (mkServiceKey "active" s) (.vStr na))
          by_cases hna : na = ""
          · rw [if_pos hna]
            intro sv v hsv hav
            by_cases hsv_s : sv = s
            · subst hsv_s
              rw [activeRaw_del_active_self] at hav
              exact Option.noConfusion hav
            · rw [activeRaw_del_active_ne hs hsv hsv_s, hact3 sv hsv] at hav
              obtain ⟨a', rfl, hm⟩ := h sv _ hsv hav
              refine ⟨a', rfl, ?_⟩
              rw [linkedList_del_active hs hsv, hlink3 sv hsv, if_neg hsv_s]
              exact hm
          · rw [if_neg hna]
            intro sv v hsv hav
            by_cases hsv_s : sv = s
            · subst hsv_s
              rw [activeRaw_set_active_self] at hav
              cases Option.some.inj hav
              refine ⟨na, rfl, ?_⟩
              rw [linkedList_set_active hsv hsv, hlink3 sv hsv, if_pos rfl]
              exact List.mem_of_mem_head? hh
            · rw [activeRaw_set_active_ne hs hsv hsv_s, hact3 sv hsv] at hav
              obtain ⟨a', rfl, hm⟩ := h sv _ hsv hav
              refine ⟨a', rfl, ?_⟩
              rw [linkedList_set_active hs hsv, hlink3 sv hsv, if_neg hsv_s]
              exact hm
      · rw [if_neg hcond]
        intro sv v hsv hav
        by_cases hsv_s : sv = s
        · subst hsv_s
          rw [hact3 sv hsv] at hav
          obtain ⟨a', hva, hm⟩ := h sv _ hsv hav
          refine ⟨a', hva, ?_⟩
          rw [hlink3 sv hsv, if_pos rfl, hfiltered, hlink2 sv hsv]
          rw [List.mem_filter]
          refine ⟨hm, ?_⟩
          have hne : a' ≠ a := by
            intro heq
            apply hcond
            rw [hact3 sv hsv, hav, hva, heq]
            simp [strictEqStr]
          simpa using hne
        · rw [hact3 sv hsv] at hav
          obtain ⟨a', rfl, hm⟩ := h sv _ hsv hav
          refine ⟨a', rfl, ?_⟩
          rw [hlink3 sv hsv, if_neg hsv_s]
          exact hm

theorem activeInv_applyOp {t : Store} (op : DirOp) (hv : ValidOp t op) (h : ActiveInv t) :
    ActiveInv (applyOp t op) := by
  cases op with
  | add s a => exact activeInv_addAccount s a h
  | remove s a => exact activeInv_removeAccount s a h
  | setActive s oa => exact activeInv_setActive s oa hv h

theorem activeInv_emptyStore : ActiveInv emptyStore := by
  intro sv v _ hav
  exact Option.noConfusion hav

theorem activeInv_reachable {s t : Store} (h0 : ActiveInv s) (h : Reachable s t) :
    ActiveInv t := by
  induction h with
  | refl => exact h0
  | step op _ hv ih => exact activeInv_applyOp op hv ih

/-! ## Behaviour lemmas for single operations -/

theorem mk_data (s : String) : String.mk s.data = s := rfl

theorem addAccount_mem {store : Store} {service accountId : String}
    (hs : hasColon service = false) (hmem : accountId ∈ linkedList store service) :
    (addAccount store service accountId).1 =
      if truthyV (activeRaw store service) then store
      else storeSet store (mkServiceKey "active" service) (.vStr accountId) := by
  simp only [addAccount, hs, Bool.false_eq_true, if_false, hmem]
  simp [apply_ite Prod.fst]

theorem addAccount_not_mem {store : Store} {service accountId : String}
    (hs : hasColon service = false) (hmem : accountId ∉ linkedList store service) :
    (addAccount store service accountId).1 =
      if truthyV (activeRaw store service) then
        storeSet store (mkServiceKey "linked" service)
          (.vList (linkedList store service ++ [accountId]))
      else
        storeSet (storeSet store (mkServiceKey "linked" service)
            (.vList (linkedList store service ++ [accountId])))
          (mkServiceKey "active" service) (.vStr accountId) := by
  simp only [addAccount, hs, Bool.false_eq_true, if_false, hmem]
  simp [apply_ite Prod.fst, activeRaw_set_linked hs hs]

theorem splitChars_no_sep (c : Char) :
    ∀ xs : List Char, c ∉ xs → splitChars c xs = [xs] := by
  intro xs
  induction xs with
  | nil => intro _; rfl
  | cons x tail ih =>
    intro h
    have hx : ¬(x = c) := fun he => h (he ▸ List.mem_cons_self x tail)
    have ht : c ∉ tail := fun hm => h (List.mem_cons_of_mem x hm)
    rw [splitChars, if_neg hx, ih ht]

theorem splitChars_append_cons (c : Char) (xs ys : List Char) (h : c ∉ xs) :
    splitChars c (xs ++ c :: ys) = xs :: splitChars c ys := by
  induction xs with
  | nil => rw [List.nil_append, splitChars, if_pos rfl]
  | cons x tail ih =>
    have hx : ¬(x = c) := fun he => h (he ▸ List.mem_cons_self x tail)
    have ht : c ∉ tail := fun hm => h (List.mem_cons_of_mem x hm)
    rw [List.cons_append, splitChars, if_neg hx, ih ht]

/-! ## Claim C1 -/

/-- C1: for every service, after any finite sequence of `addAccount`,
`removeAccount` and `setActiveAccount` calls with valid arguments (per the
documented precondition, `setActiveAccount` is only ever passed a currently
linked account or the explicit deactivation marker; the other two accept
arbitrary identifiers, and calls whose key validation throws leave the store
unchanged), a readable active-account pointer is a string naming a member of
that service's linked-accounts list. -/
theorem c1_active_pointer_is_linked {t : Store} (h : Reachable emptyStore t)
    (service : String) (v : Value)
    (hread : getActiveAccount t service = .ok (some v)) :
    ∃ a, v = .vStr a ∧ a ∈ linkedList t service := by
  by_cases hs : hasColon service
  · rw [getActiveAccount, if_pos hs] at hread
    exact Except.noConfusion hread
  · rw [Bool.not_eq_true] at hs
    rw [getActiveAccount, if_neg (by rw [hs]; exact Bool.false_ne_true)] at hread
    exact activeInv_reachable activeInv_emptyStore h service v hs (Except.ok.inj hread)

/-- Closed witness for C1: a store reached by one valid `addAccount` call, at
which the readable pointer is indeed linked. -/
theorem c1_active_pointer_is_linked_witness :
    "a@x" ∈ linkedList (applyOp emptyStore (.add "g" "a@x")) "g" := by
  obtain ⟨a, hv, hm⟩ := c1_active_pointer_is_linked
    (Reachable.step (DirOp.add "g" "a@x") (Reachable.refl emptyStore) trivial)
    "g" (Value.vStr "a@x") (by decide)
  injection hv with h
  subst h
  exact hm

/-! ## Claim C5 -/

/-- C5: for every directory state (well-formed linked slot, duplicate-free per
the data-model invariant, valid service key) and account id, calling
`addAccount` twice leaves a linked-accounts list with exactly one occurrence
of the id, and the second call changes no stored record: the store after the
second call equals the store after the first. -/
theorem c5_addAccount_idempotent {store : Store} {service accountId : String}
    (hs : hasColon service = false) (_hwf : LinkedWF store service)
    (hdup : (linkedList store service).count accountId ≤ 1) :
    (linkedList ((addAccount store service accountId).1) service).count accountId = 1 ∧
      (addAccount ((addAccount store service accountId).1) service accountId).1 =
        (addAccount store service accountId).1 := by
  by_cases hmem : accountId ∈ linkedList store service
  · have hcount : (linkedList store service).count accountId = 1 :=
      le_antisymm hdup (List.count_pos_iff.mpr hmem)
    rw [addAccount_mem hs hmem]
    by_cases htr : truthyV (activeRaw store service)
    · rw [if_pos htr]
      exact ⟨hcount, by rw [addAccount_mem hs hmem, if_pos htr]⟩
    · rw [if_neg htr]
      constructor
      · rw [linkedList_set_active hs hs]
        exact hcount
      · have hmem1 : accountId ∈
            linkedList (storeSet store (mkServiceKey "active" service) (.vStr accountId))
              service := by
          rw [linkedList_set_active hs hs]
          exact hmem
        rw [addAccount_mem hs hmem1]
        by_cases hne : accountId = ""
        · subst hne
          rw [if_neg (by rw [activeRaw_set_active_self]; simp [truthyV])]
          exact storeSet_cancel (storeSet_get_self store _ _)
        · rw [if_pos (by rw [activeRaw_set_active_self]; simp [truthyV, hne])]
  · have hcount0 : (linkedList store service).count accountId = 0 :=
      List.count_eq_zero.mpr hmem
    have hmemapp : accountId ∈ linkedList store service ++ [accountId] :=
      List.mem_append_right _ (List.mem_singleton_self accountId)
    have hcount1 : (linkedList store service ++ [accountId]).count accountId = 1 := by
      rw [List.count_append, hcount0]
      simp
    rw [addAccount_not_mem hs hmem]
    by_cases htr : truthyV (activeRaw store service)
    · rw [if_pos htr]
      constructor
      · rw [linkedList_set_linked_self]
        exact hcount1
      · have hmem1 : accountId ∈
            linkedList (storeSet store (mkServiceKey "linked" service)
              (.vList (linkedList store service ++ [accountId]))) service := by
          rw [linkedList_set_linked_self]
          exact hmemapp
        rw [addAccount_mem hs hmem1]
        rw [if_pos (by rw [activeRaw_set_linked hs hs]; exact htr)]
    · rw [if_neg htr]
      constructor
      · rw [linkedList_set_active hs hs, linkedList_set_linked_self]
        exact hcount1
      · have hmem1 : accountId ∈
            linkedList (storeSet (storeSet store (mkServiceKey "linked" service)
                (.vList (linkedList store service ++ [accountId])))
              (mkServiceKey "active" service) (.vStr accountId)) service := by
          rw [linkedList_set_active hs hs, linkedList_set_linked_self]
          exact hmemapp
        rw [addAccount_mem hs hmem1]
        by_cases hne : accountId = ""
        · subst hne
          rw [if_neg (by rw [activeRaw_set_active_self]; simp [truthyV])]
          exact storeSet_cancel (storeSet_get_self _ _ _)
        · rw [if_pos (by rw [activeRaw_set_active_self]; simp [truthyV, hne])]

/-- Closed witness for C5 at the empty directory. -/
theorem c5_addAccount_idempotent_witness :
    (linkedList ((addAccount emptyStore "g" "u@x").1) "g").count "u@x" = 1 ∧
      (addAccount ((addAccount emptyStore "g" "u@x").1) "g" "u@x").1 =
        (addAccount emptyStore "g" "u@x").1 :=
  c5_addAccount_idempotent (by decide) (Or.inl rfl) (by decide)

/-! ## Claim C6 -/

/-- C6 (amended): starting from a directory with no linked accounts and no
active pointer for a service, adding a first account with a non-empty
identifier sets the pointer to it, and adding a second, distinct account
leaves the pointer unchanged.  (The non-emptiness proviso is forced by the
JavaScript falsiness check `if (!active)`: an empty-string pointer counts as
unset and is overwritten by the second call.) -/
theorem c6_first_add_activates {store : Store} {service a b : String}
    (hs : hasColon service = false)
    (hlk : store (mkServiceKey "linked" service) = none)
    (hac : store (mkServiceKey "active" service) = none)
    (hne : a ≠ "") (hab : b ≠ a) :
    getActiveAccount ((addAccount store service a).1) service = .ok (some (.vStr a)) ∧
      getActiveAccount ((addAccount ((addAccount store service a).1) service b).1) service =
        .ok (some (.vStr a)) := by
  have hsneg : ¬(hasColon service = true) := by
    rw [hs]
    exact Bool.false_ne_true
  have hL : linkedList store service = [] := by
    unfold linkedList
    rw [hlk]
  have hmem : a ∉ linkedList store service := by
    rw [hL]
    exact List.not_mem_nil a
  have hfalsy : ¬(truthyV (activeRaw store service) = true) := by
    unfold activeRaw
    rw [hac]
    simp [truthyV]
  rw [addAccount_not_mem hs hmem, if_neg hfalsy]
  constructor
  · rw [getActiveAccount, if_neg hsneg, activeRaw_set_active_self]
  · have hL1 : linkedList (storeSet (storeSet store (mkServiceKey "linked" service)
        (.vList (linkedList store service ++ [a]))) (mkServiceKey "active" service)
        (.vStr a)) service = [a] := by
      rw [linkedList_set_active hs hs, linkedList_set_linked_self, hL, List.nil_append]
    have hmemb : b ∉ linkedList (storeSet (storeSet store (mkServiceKey "linked" service)
        (.vList (linkedList store service ++ [a]))) (mkServiceKey "active" service)
        (.vStr a)) service := by
      rw [hL1]
      simp [hab]
    rw [addAccount_not_mem hs hmemb,
      if_pos (by rw [activeRaw_set_active_self]; simp [truthyV, hne])]
    rw [getActiveAccount, if_neg hsneg, activeRaw_set_linked hs hs, activeRaw_set_active_self]

/-- Closed witness for C6 (amended) with two ordinary identifiers. -/
theorem c6_first_add_activates_witness :
    getActiveAccount ((addAccount emptyStore "g" "u1").1) "g" = .ok (some (.vStr "u1")) ∧
      getActiveAccount ((addAccount ((addAccount emptyStore "g" "u1").1) "g" "u2").1) "g" =
        .ok (some (.vStr "u1")) :=
  c6_first_add_activates (by decide) rfl rfl (by decide) (by decide)

/-- Counterexample to C6 as stated: with the empty string as first account the
first add does set it active, but the second add overwrites the pointer, so
the pointer does not stay on the first account. -/
theorem c6_counterexample :
    getActiveAccount ((addAccount emptyStore "g" "").1) "g" = .ok (some (.vStr "")) ∧
      getActiveAccount ((addAccount ((addAccount emptyStore "g" "").1) "g" "b").1) "g" =
        .ok (some (.vStr "b")) ∧
      getActiveAccount ((addAccount ((addAccount emptyStore "g" "").1) "g" "b").1) "g" ≠
        .ok (some (.vStr "")) := by decide

/-! ## Claim C4 -/

theorem removeAccount_fst (store : Store) (service accountId : String)
    (ha : hasColon accountId = false) (hs : hasColon service = false) :
    (removeAccount store service accountId).1 =
      (let s2 := storeDel (storeDel store (mkAccountKey accountId service "token"))
          (mkAccountKey accountId service "metadata")
       let filtered := (linkedList s2 service).filter (fun id => decide (id ≠ accountId))
       let s3 := storeSet s2 (mkServiceKey "linked" service) (.vList filtered)
       if strictEqStr (activeRaw s3 service) accountId then
         match filtered.head? with
         | some newActive =>
           if newActive = "" then storeDel s3 (mkServiceKey "active" service)
           else storeSet s3 (mkServiceKey "active" service) (.vStr newActive)
         | none => storeDel s3 (mkServiceKey "active" service)
       else s3) := by
  simp only [removeAccount, ha, hs, Bool.false_eq_true, if_false]
  by_cases hcond : strictEqStr (activeRaw (storeSet (storeDel (storeDel store
      (mkAccountKey accountId service "token")) (mkAccountKey accountId service "metadata"))
      (mkServiceKey "linked" service) (.vList ((linkedList (storeDel (storeDel store
        (mkAccountKey accountId service "token")) (mkAccountKey accountId service "metadata"))
        service).filter (fun id => decide (id ≠ accountId))))) service) accountId
  · rw [if_pos hcond, if_pos hcond]
    cases ((linkedList (storeDel (storeDel store (mkAccountKey accountId service "token"))
        (mkAccountKey accountId service "metadata")) service).filter
        (fun id => decide (id ≠ accountId))).head? with
    | none => rfl
    | some na => by_cases hna : na = "" <;> simp [hna]
  · rw [if_neg hcond, if_neg hcond]

/-- C4 (amended): for every well-formed directory state and valid identifiers,
removing the account named by the active pointer stores the filtered linked
list and re-points the pointer to its first element when that element is
non-empty; when no account remains or the first remaining identifier is the
empty string (which the JavaScript test `if (newActive)` treats as absent),
the pointer is deleted and a subsequent `getActiveAccount` returns absent. -/
theorem c4_remove_active_repoints {store : Store} {service accountId : String}
    (hs : hasColon service = false) (ha : hasColon accountId = false)
    (_hwf : LinkedWF store service)
    (hact : activeRaw store service = some (.vStr accountId)) :
    linkedList ((removeAccount store service accountId).1) service =
      (linkedList store service).filter (fun id => decide (id ≠ accountId)) ∧
    (∀ na, ((linkedList store service).filter
        (fun id => decide (id ≠ accountId))).head? = some na → na ≠ "" →
      getActiveAccount ((removeAccount store service accountId).1) service =
        .ok (some (.vStr na))) ∧
    (((linkedList store service).filter (fun id => decide (id ≠ accountId))).head? = none ∨
      ((linkedList store service).filter
        (fun id => decide (id ≠ accountId))).head? = some "" →
      getActiveAccount ((removeAccount store service accountId).1) service = .ok none) := by
  have hsneg : ¬(hasColon service = true) := by
    rw [hs]
    exact Bool.false_ne_true
  have hlink2 : linkedList (storeDel (storeDel store (mkAccountKey accountId service "token"))
      (mkAccountKey accountId service "metadata")) service = linkedList store service := by
    rw [linkedList_del_account ha hs (by decide) hs,
      linkedList_del_account ha hs (by decide) hs]
  have hact3 : activeRaw (storeSet (storeDel (storeDel store
      (mkAccountKey accountId service "token")) (mkAccountKey accountId service "metadata"))
      (mkServiceKey "linked" service) (.vList ((linkedList (storeDel (storeDel store
        (mkAccountKey accountId service "token")) (mkAccountKey accountId service "metadata"))
        service).filter (fun id => decide (id ≠ accountId))))) service =
      some (.vStr accountId) := by
    rw [activeRaw_set_linked hs hs, activeRaw_del_account ha hs (by decide) hs,
      activeRaw_del_account ha hs (by decide) hs]
    exact hact
  have hcond : strictEqStr (activeRaw (storeSet (storeDel (storeDel store
      (mkAccountKey accountId service "token")) (mkAccountKey accountId service "metadata"))
      (mkServiceKey "linked" service) (.vList ((linkedList (storeDel (storeDel store
        (mkAccountKey accountId service "token")) (mkAccountKey accountId service "metadata"))
        service).filter (fun id => decide (id ≠ accountId))))) service) accountId = true := by
    rw [hact3]
    simp [strictEqStr]
  rw [removeAccount_fst store service accountId ha hs]
  simp only [hlink2]
  rw [if_pos (by rw [hlink2] at hcond; exact hcond)]
  refine ⟨?_, ?_, ?_⟩
  · cases hh : ((linkedList store service).filter (fun id => decide (id ≠ accountId))).head? with
    | none =>
      simp [linkedList_del_active hs hs, linkedList_set_linked_self]
    | some na =>
      by_cases hna : na = "" <;>
        simp [hna, linkedList_del_active hs hs, linkedList_set_active hs hs,
          linkedList_set_linked_self]
  · intro na hh hna
    rw [hh]
    simp [hna, getActiveAccount, hs, activeRaw_set_active_self]
  · intro hh
    cases hh with
    | inl hnone =>
      rw [hnone]
      simp [getActiveAccount, hs, activeRaw_del_active_self]
    | inr hempty =>
      rw [hempty]
      simp [getActiveAccount, hs, activeRaw_del_active_self]

/-- Closed witness for C4 (amended): removing the active account of a
two-account directory re-points the pointer to the remaining account. -/
theorem c4_remove_active_repoints_witness :
    getActiveAccount ((removeAccount (storeSet (storeSet emptyStore
        (mkServiceKey "linked" "g") (.vList ["a", "b"])) (mkServiceKey "active" "g")
        (.vStr "a")) "g" "a").1) "g" = .ok (some (.vStr "b")) :=
  (c4_remove_active_repoints (by decide) (by decide)
      (Or.inr ⟨["a", "b"], by decide⟩) (by decide)).2.1 "b" (by decide) (by decide)

/-- Counterexample to C4 as stated: in the directory with linked accounts
`["a", ""]` and `a` active, removing `a` leaves `[""]` linked, yet the pointer
is deleted (the falsy empty string fails the `if (newActive)` test) instead of
being set to the first remaining element. -/
theorem c4_counterexample :
    activeRaw c4Store "g" = some (.vStr "a") ∧
      linkedList ((removeAccount c4Store "g" "a").1) "g" = [""] ∧
      getActiveAccount ((removeAccount c4Store "g" "a").1) "g" = .ok none ∧
      getActiveAccount ((removeAccount c4Store "g" "a").1) "g" ≠
        .ok (some (.vStr "")) := by decide

/-! ## Claim C7 -/

/-- C7 (amended): for every pair of non-empty strings accountId and service
containing no colon, `parseTokenKey` applied to the key built by
`createAccountKey` for kind `token` returns exactly the pair.  (Non-emptiness
is forced: `parseTokenKey` rejects keys whose first or second segment is
empty, and an empty identifier produces such a key.) -/
theorem c7_key_roundtrip {accountId service : String}
    (ha : hasColon accountId = false) (hs : hasColon service = false)
    (hna : accountId ≠ "") (hns : service ≠ "") :
    createAccountKey "token" accountId service =
        .ok (mkAccountKey accountId service "token") ∧
      parseTokenKey (mkAccountKey accountId service "token") =
        some ⟨accountId, service⟩ := by
  constructor
  · rw [createAccountKey, if_neg (by rw [ha]; exact Bool.false_ne_true),
      if_neg (by rw [hs]; exact Bool.false_ne_true)]
  · unfold parseTokenKey jsSplit
    rw [mkAccountKey_data]
    rw [splitChars_append_cons ':' accountId.data _ (hasColon_false_iff.mp ha)]
    rw [splitChars_append_cons ':' service.data _ (hasColon_false_iff.mp hs)]
    rw [splitChars_no_sep ':' "token".data (by decide)]
    simp only [List.map_cons, List.map_nil, mk_data]
    rw [if_pos ⟨trivial, hna, hns⟩]

/-- Closed witness for C7 (amended) at ordinary identifiers. -/
theorem c7_key_roundtrip_witness :
    createAccountKey "token" "alice@x" "gmail" =
        .ok (mkAccountKey "alice@x" "gmail" "token") ∧
      parseTokenKey (mkAccountKey "alice@x" "gmail" "token") = some ⟨"alice@x", "gmail"⟩ :=
  c7_key_roundtrip (by decide) (by decide) (by decide) (by decide)

/-- Counterexample to C7 as stated: the empty accountId contains no colon, yet
the constructed key `:g:token` parses to the not-found sentinel rather than to
the pair, because its first segment is empty. -/
theorem c7_counterexample :
    hasColon "" = false ∧ hasColon "g" = false ∧
      createAccountKey "token" "" "g" = .ok ":g:token" ∧
      parseTokenKey ":g:token" = none ∧
      parseTokenKey ":g:token" ≠ some ⟨"", "g"⟩ := by decide

/-! ## Claim C8 -/

theorem listAccountIds_foldl (service : String) (keys : List String) :
    ∀ acc : List String,
      keys.foldl (fun acc key => match parseTokenKey key with
        | some p => if p.service = service then acc ++ [p.accountId] else acc
        | none => acc) acc =
        acc ++ keys.filterMap (fun key => match parseTokenKey key with
          | some p => if p.service = service then some p.accountId else none
          | none => none) := by
  induction keys with
  | nil => intro acc; simp
  | cons k ks ih =>
    intro acc
    rw [List.foldl_cons, List.filterMap_cons]
    cases hp : parseTokenKey k with
    | none =>
      simp only [hp]
      exact ih acc
    | some p =>
      simp only [hp]
      by_cases hsv : p.service = service <;> simp [hsv, ih, List.append_assoc]

/-- C8 (amended): `listAccountIds` never propagates an error: it returns the
empty sequence when the store exposes no iterator, and otherwise returns
exactly the account identifiers of the keys yielded before completion or
failure that parse as token keys with matching service — in particular the
identifiers accumulated before a mid-iteration failure, not always the empty
sequence. -/
theorem c8_listAccountIds_graceful (iter : IterationOutcome) (service : String) :
    listAccountIds iter service =
      match iter with
      | none => []
      | some (keys, _) => keys.filterMap (fun key => match parseTokenKey key with
          | some p => if p.service = service then some p.accountId else none
          | none => none) := by
  cases iter with
  | none => rfl
  | some ke =>
    obtain ⟨keys, e⟩ := ke
    simp only [listAccountIds]
    rw [listAccountIds_foldl service keys []]
    rw [List.nil_append]

/-- Counterexample to C8 as stated: an iterator that yields one matching token
key and then raises makes `listAccountIds` return the accumulated identifier,
not the empty sequence. -/
theorem c8_counterexample :
    listAccountIds (some (["a:g:token"], true)) "g" = ["a"] ∧
      listAccountIds (some (["a:g:token"], true)) "g" ≠ ([] : List String) := by decide

/-! ## Claim C2 -/

/-- C2 (amended): whenever the supplied reference is truthy (non-empty) and
resolves through `findAccountByEmailOrAlias` to a linked account — and, when a
truthy alias is also supplied, that account id is a valid key parameter — the
account-switch handler sets the account active and reports `isNew = false`,
and the re-authentication capability is invoked zero times, whatever
capability is supplied.  (Non-emptiness is forced: a falsy reference skips
resolution and takes the re-authentication path.) -/
theorem c2_switch_reuse_no_oauth {store : Store} {service ref accountId : String}
    (authCap : Store → Store × Except String Unit) (now : String) (aliasArg : Option String)
    (href : ref ≠ "")
    (hfind : findAccountByEmailOrAlias store service ref = .ok (some accountId))
    (halias : truthyS aliasArg = true → hasColon accountId = false) :
    (accountSwitch service authCap now ⟨some ref, aliasArg⟩ store).authCalls = 0 ∧
      activeRaw (accountSwitch service authCap now ⟨some ref, aliasArg⟩ store).store
        service = some (.vStr accountId) ∧
      (accountSwitch service authCap now ⟨some ref, aliasArg⟩ store).result =
        .ok { email := accountId, isNew := false,
              totalAccounts := (linkedList store service).length,
              message := reuseMsg accountId } := by
  by_cases hs : hasColon service
  · rw [findAccountByEmailOrAlias, if_pos hs] at hfind
    exact Except.noConfusion hfind
  · rw [Bool.not_eq_true] at hs
    have htr : truthyS (some ref) = true := by simp [truthyS, href]
    have hout : accountSwitch service authCap now ⟨some ref, aliasArg⟩ store =
        switchReuse service now aliasArg store (linkedList store service) accountId := by
      simp only [accountSwitch, hs, Bool.false_eq_true, if_false, htr, if_true,
        Option.getD_some, hfind]
    rw [hout]
    have hs1 : (setActiveAccount store service (some accountId)).1 =
        storeSet store (mkServiceKey "active" service) (.vStr accountId) := by
      simp [setActiveAccount, hs]
    by_cases hal : truthyS aliasArg
    · have hcol : hasColon accountId = false := halias hal
      refine ⟨?_, ?_, ?_⟩ <;>
        simp only [switchReuse, hal, if_true, hcol, Bool.false_eq_true, if_false, hs1]
      · rw [activeRaw_set_account hcol hs (by decide) hs, activeRaw_set_active_self]
    · rw [Bool.not_eq_true] at hal
      refine ⟨?_, ?_, ?_⟩ <;>
        simp only [switchReuse, hal, Bool.false_eq_true, if_false, hs1]
      · rw [activeRaw_set_active_self]

/-- Closed witness for C2 (amended): switching to the second of two linked
accounts by its email sets it active with `isNew = false` and zero capability
invocations. -/
theorem c2_switch_reuse_no_oauth_witness :
    (accountSwitch "g" idCap "t0" ⟨some "u2", none⟩ c2WitnessStore).authCalls = 0 ∧
      activeRaw (accountSwitch "g" idCap "t0" ⟨some "u2", none⟩ c2WitnessStore).store "g" =
        some (.vStr "u2") ∧
      (accountSwitch "g" idCap "t0" ⟨some "u2", none⟩ c2WitnessStore).result =
        .ok { email := "u2", isNew := false,
              totalAccounts := (linkedList c2WitnessStore "g").length,
              message := reuseMsg "u2" } :=
  c2_switch_reuse_no_oauth idCap "t0" none (by decide) (by decide)
    (by intro h; exact absurd h (by decide))

/-- Counterexample to C2 as stated: the empty-string reference resolves by
exact match to the linked empty-string account, yet the handler treats the
falsy `email` parameter as absent and takes the re-authentication path,
invoking the capability once rather than zero times. -/
theorem c2_counterexample :
    findAccountByEmailOrAlias c2Store "g" "" = .ok (some "") ∧
      (accountSwitch "g" idCap "t0" ⟨some "", none⟩ c2Store).authCalls = 1 ∧
      (accountSwitch "g" idCap "t0" ⟨some "", none⟩ c2Store).authCalls ≠ 0 := by decide

/-! ## Claim C3 -/

/-- C3: run of the re-authentication path in which the flow returns the
already-linked account `b@x` (alias `work` stored, no alias argument
supplied).  The handler adds no duplicate — the linked list is unchanged — but
it rewrites the metadata record with no alias field, losing `work`, although
it explicitly preserves the original `addedAt`.  This contradicts the spec
sentence that an existing alias must not be lost unless a new one is
supplied. -/
theorem c3_alias_lost_on_reauth :
    linkedList c3Store "g" = ["a@x", "b@x"] ∧
      infoRead c3Store "b@x" "g" = some c3Info ∧
      (accountSwitch "g" c3Cap "t2" ⟨none, none⟩ c3Store).result =
        .ok { email := "b@x", isNew := false, totalAccounts := 2,
              message := "Account already linked: b@x. Set as active account." } ∧
      linkedList (accountSwitch "g" c3Cap "t2" ⟨none, none⟩ c3Store).store "g" =
        ["a@x", "b@x"] ∧
      infoRead (accountSwitch "g" c3Cap "t2" ⟨none, none⟩ c3Store).store "b@x" "g" =
        some { email := "b@x", aliasName := none, addedAt := "t1", lastUsed := none } := by
  decide

/-! ## Claim C9 -/

/-- C9: when the removal reference resolves to no linked account the
account-remove handler reports an error — `Account not found` whenever any
account is linked, the dedicated empty-directory error otherwise — and
performs no directory mutation: the store is returned unchanged.  It never
succeeds silently. -/
theorem c9_remove_not_found_error {store : Store} {service ref : String}
    (hfind : findAccountByEmailOrAlias store service ref = .ok none) :
    (accountRemove service ref store).1 = store ∧
      (accountRemove service ref store).2 =
        .error (if linkedList store service = []
          then wrapRemove service ("No " ++ service ++ " accounts to remove")
          else wrapRemove service ("Account not found: " ++ ref)) := by
  by_cases hs : hasColon service
  · rw [findAccountByEmailOrAlias, if_pos hs] at hfind
    exact Except.noConfusion hfind
  · rw [Bool.not_eq_true] at hs
    by_cases hlen : (linkedList store service).length = 0
    · have hnil : linkedList store service = [] := List.length_eq_zero.mp hlen
      constructor <;> simp [accountRemove, hs, hlen, hnil]
    · have hnotnil : ¬(linkedList store service = []) := by
        intro h
        exact hlen (by rw [h]; rfl)
      constructor <;> simp [accountRemove, hs, hlen, hfind, hnotnil]

/-- Closed witness for C9 at the empty directory. -/
theorem c9_remove_not_found_error_witness :
    (accountRemove "g" "x" emptyStore).1 = emptyStore ∧
      (accountRemove "g" "x" emptyStore).2 =
        .error (if linkedList emptyStore "g" = []
          then wrapRemove "g" ("No " ++ "g" ++ " accounts to remove")
          else wrapRemove "g" ("Account not found: " ++ "x")) :=
  c9_remove_not_found_error (by decide)

/-! ## Claim C10 -/

/-- C10: on the re-authentication path the handler ignores the value returned
by the capability (modelled by a capability type returning no email) and reads
the email from the active-account pointer after the capability returns; when
that pointer is absent the handler reports the dedicated error, wrapped by the
tool, and performs no directory mutation of its own: the resulting store is
exactly the store as the capability left it — the pre-call store whenever the
capability, per the spec an opaque email-identity fetch, leaves the directory
untouched. -/
theorem c10_oauth_missing_pointer {store s1 : Store} {service now : String}
    {params : SwitchParams} (authCap : Store → Store × Except String Unit)
    (hs : hasColon service = false)
    (hentry : truthyS params.email = false ∨
      findAccountByEmailOrAlias store service (params.email.getD "") = .ok none)
    (hcap : authCap store = (s1, .ok ()))
    (habs : activeRaw s1 service = none) :
    accountSwitch service authCap now params store =
      ⟨s1, .error (wrapSwitch service oauthNoActiveMsg), 1⟩ := by
  have hoauth : ∀ al, switchOAuth service now authCap al store (linkedList store service) =
      ⟨s1, .error (wrapSwitch service oauthNoActiveMsg), 1⟩ := by
    intro al
    simp only [switchOAuth, hcap, habs]
  cases hentry with
  | inl h =>
    rw [accountSwitch, if_neg (by rw [hs]; exact Bool.false_ne_true),
      if_neg (by rw [h]; exact Bool.false_ne_true)]
    exact hoauth params.aliasArg
  | inr h =>
    by_cases htru : truthyS params.email
    · rw [accountSwitch, if_neg (by rw [hs]; exact Bool.false_ne_true), if_pos htru, h]
      exact hoauth params.aliasArg
    · rw [accountSwitch, if_neg (by rw [hs]; exact Bool.false_ne_true), if_neg htru]
      exact hoauth params.aliasArg

/-- Closed witness for C10: a capability that completes without touching the
empty store makes the handler fail with the dedicated error and leave the
store exactly as it was before the call. -/
theorem c10_oauth_missing_pointer_witness :
    accountSwitch "g" idCap "t0" ⟨none, none⟩ emptyStore =
      ⟨emptyStore, .error (wrapSwitch "g" oauthNoActiveMsg), 1⟩ :=
  c10_oauth_missing_pointer idCap (by decide) (Or.inl (by decide)) rfl rfl

end McpOauth
